import Mathlib

set_option maxRecDepth 100000

/-!
Verification development for the nextjs-telefish repository.

JavaScript strings are modelled as lists of UTF-16 code units (natural
numbers).  Byte buffers are lists of naturals below 256.  The platform
primitives used by the source (Buffer base64 decoding, latin1 and utf8
byte decoding, String.prototype.trim, JSON.parse) are embedded as
executable Lean functions following the documented Node.js / ECMAScript
semantics, and the repository functions (k0, decryptPlaylist, scan,
performFetch, fetchPlaylist, the route handlers) are translated from the
source on top of them.
-/

namespace Telefish

/-- A JavaScript string: a list of UTF-16 code units. -/
abbrev Str := List Nat

/-- Embed an ASCII/BMP Lean string literal as a list of code units. -/
def ofStr (s : String) : Str := s.data.map Char.toNat

/-- Mirrors the source helper reverse: splitting into code units,
reversing, joining. -/
def reverse (s : Str) : Str := s.reverse

/-- Value of one base64 alphabet character (Node also accepts the URL-safe
alphabet, mapping minus to 62 and underscore to 63); none for characters
outside the alphabet. -/
def sextet (c : Nat) : Option Nat :=
  if 65 ≤ c ∧ c ≤ 90 then some (c - 65)        -- A..Z
  else if 97 ≤ c ∧ c ≤ 122 then some (c - 97 + 26)  -- a..z
  else if 48 ≤ c ∧ c ≤ 57 then some (c - 48 + 52)   -- 0..9
  else if c = 43 ∨ c = 45 then some 62         -- plus, minus
  else if c = 47 ∨ c = 95 then some 63         -- slash, underscore
  else none

/-- Decode a list of sextet values into bytes, three bytes per group of
four values; a trailing group of two or three values yields one or two
bytes, a single trailing value yields nothing. -/
def b64Group : List Nat → List Nat
  | v1 :: v2 :: v3 :: v4 :: rest =>
      (v1 * 4 + v2 / 16) :: ((v2 % 16) * 16 + v3 / 4) :: ((v3 % 4) * 64 + v4) :: b64Group rest
  | [v1, v2, v3] => [v1 * 4 + v2 / 16, (v2 % 16) * 16 + v3 / 4]
  | [v1, v2] => [v1 * 4 + v2 / 16]
  | _ => []

/-- Node Buffer.from(s, base64): each UTF-16 code unit is truncated to its
low byte, decoding stops at the first padding character (value 61), all
other characters outside the base64 alphabet are skipped, and complete
or partial groups of sextets are emitted as bytes.  This decoder never
fails. -/
def b64Decode (s : Str) : List Nat :=
  b64Group (((s.map (· % 256)).takeWhile (· ≠ 61)).filterMap sextet)

/-- Buffer#toString(latin1): each byte becomes the code unit of the same
value. -/
def latin1Decode (bs : List Nat) : Str := bs

/-- One step of the WHATWG UTF-8 decoder: is b a trailing byte. -/
def isTrail (b : Nat) : Bool := 128 ≤ b ∧ b ≤ 191

/-- Allowed first trailing byte after a three-byte lead. -/
def t3ok (b c1 : Nat) : Bool :=
  if b = 224 then 160 ≤ c1 ∧ c1 ≤ 191
  else if b = 237 then 128 ≤ c1 ∧ c1 ≤ 159
  else 128 ≤ c1 ∧ c1 ≤ 191

/-- Allowed first trailing byte after a four-byte lead. -/
def t4ok (b c1 : Nat) : Bool :=
  if b = 240 then 144 ≤ c1 ∧ c1 ≤ 191
  else if b = 244 then 128 ≤ c1 ∧ c1 ≤ 143
  else 128 ≤ c1 ∧ c1 ≤ 191

/-- WHATWG UTF-8 decoding to code points with U+FFFD (65533) replacing
each maximal invalid subsequence, as performed by Buffer#toString(utf8).
On a failed trailing byte the offending byte is reprocessed.  The fuel
argument is a Lean recursion artifice: every recursive call shortens the
input, so fuel exceeding the input length never runs out. -/
def utf8DecodeF : Nat → List Nat → List Nat
  | 0, _ => []
  | _ + 1, [] => []
  | fuel + 1, b :: rest =>
    if b < 128 then b :: utf8DecodeF fuel rest
    else if 194 ≤ b ∧ b ≤ 223 then
      match rest with
      | c1 :: r2 =>
        if isTrail c1 then ((b - 192) * 64 + (c1 - 128)) :: utf8DecodeF fuel r2
        else 65533 :: utf8DecodeF fuel rest
      | [] => [65533]
    else if 224 ≤ b ∧ b ≤ 239 then
      match rest with
      | c1 :: r2 =>
        if t3ok b c1 then
          match r2 with
          | c2 :: r3 =>
            if isTrail c2 then
              ((b - 224) * 4096 + (c1 - 128) * 64 + (c2 - 128)) :: utf8DecodeF fuel r3
            else 65533 :: utf8DecodeF fuel r2
          | [] => [65533]
        else 65533 :: utf8DecodeF fuel rest
      | [] => [65533]
    else if 240 ≤ b ∧ b ≤ 244 then
      match rest with
      | c1 :: r2 =>
        if t4ok b c1 then
          match r2 with
          | c2 :: r3 =>
            if isTrail c2 then
              match r3 with
              | c3 :: r4 =>
                if isTrail c3 then
                  ((b - 240) * 262144 + (c1 - 128) * 4096 + (c2 - 128) * 64 + (c3 - 128)) :: utf8DecodeF fuel r4
                else 65533 :: utf8DecodeF fuel r3
              | [] => [65533]
            else 65533 :: utf8DecodeF fuel r2
          | [] => [65533]
        else 65533 :: utf8DecodeF fuel rest
      | [] => [65533]
    else 65533 :: utf8DecodeF fuel rest

/-- UTF-8 decoding with sufficient fuel. -/
def utf8Decode (bs : List Nat) : List Nat := utf8DecodeF (bs.length + 1) bs

/-- A code point below 0x10000 is one UTF-16 unit; larger code points
become a surrogate pair. -/
def utf16Units (cp : Nat) : List Nat :=
  if cp < 65536 then [cp]
  else [55296 + (cp - 65536) / 1024, 56320 + (cp - 65536) % 1024]

/-- Buffer#toString(utf8) as a JavaScript string. -/
def utf8DecodeStr (bs : List Nat) : Str :=
  ((utf8Decode bs).map utf16Units).flatten

/-- The codec decode function k0 from src/src/lib/bittv.ts (identical in
src/decrypt.js): reverse, base64 decode read as latin1, reverse, base64
decode read as utf8, reverse.  No step of the pipeline can throw, so the
catch branch returning the empty string is unreachable and is not part
of the model. -/
def k0 (input : Str) : Str :=
  let r1 := reverse input
  let b1 := b64Decode r1
  let s1 := latin1Decode b1
  let r2 := reverse s1
  let b2 := b64Decode r2
  let s2 := utf8DecodeStr b2
  reverse s2

/-- The five numbered steps of the codec algorithm as worded in the
specification, for comparison with the source translation k0. -/
def codecSpecC1 (input : Str) : Str :=
  let step1 := reverse input
  let step2 := latin1Decode (b64Decode step1)
  let step3 := reverse step2
  let step4 := utf8DecodeStr (b64Decode step3)
  reverse step4

/-- ECMAScript whitespace and line terminators removed by
String.prototype.trim. -/
def isJsSpace (c : Nat) : Bool :=
  c = 9 ∨ c = 10 ∨ c = 11 ∨ c = 12 ∨ c = 13 ∨ c = 32 ∨ c = 160 ∨ c = 5760 ∨
  (8192 ≤ c ∧ c ≤ 8202) ∨ c = 8232 ∨ c = 8233 ∨ c = 8239 ∨ c = 8287 ∨
  c = 12288 ∨ c = 65279

/-- String.prototype.trim. -/
def jsTrim (s : Str) : Str :=
  ((s.dropWhile isJsSpace).reverse.dropWhile isJsSpace).reverse

/-- Helper for String.prototype.lastIndexOf with a one-unit needle. -/
def lastIndexOfAux (c : Nat) : Str → Nat → Option Nat → Option Nat
  | [], _, acc => acc
  | x :: rest, i, acc => lastIndexOfAux c rest (i + 1) (if x = c then some i else acc)

/-- String.prototype.lastIndexOf for a one-unit needle; none models -1. -/
def lastIndexOf (s : Str) (c : Nat) : Option Nat := lastIndexOfAux c s 0 none

/-- JSON values as produced by JSON.parse.  Numeric literals keep their
source token, which is enough for every use in this repository. -/
inductive Json where
  | null : Json
  | bool : Bool → Json
  | num : Str → Json
  | str : Str → Json
  | arr : List Json → Json
  | obj : List (Str × Json) → Json
deriving Repr

/-- JSON insignificant whitespace. -/
def isJsonWs (c : Nat) : Bool := c = 32 ∨ c = 9 ∨ c = 10 ∨ c = 13

/-- Skip JSON whitespace. -/
def skipWs (s : Str) : Str := s.dropWhile isJsonWs

/-- ASCII decimal digit. -/
def isDigit (c : Nat) : Bool := 48 ≤ c ∧ c ≤ 57

/-- Hexadecimal digit value. -/
def hexVal (c : Nat) : Option Nat :=
  if 48 ≤ c ∧ c ≤ 57 then some (c - 48)
  else if 97 ≤ c ∧ c ≤ 102 then some (c - 97 + 10)
  else if 65 ≤ c ∧ c ≤ 70 then some (c - 65 + 10)
  else none

/-- Body of a JSON string literal after the opening quote: returns the
decoded code units and the remainder after the closing quote.  Raw
control characters below 0x20 and unknown escapes are rejected, exactly
as by JSON.parse.  The fuel argument is a Lean recursion artifice; fuel
exceeding the input length never runs out. -/
def parseStrBodyF : Nat → Str → Option (Str × Str)
  | 0, _ => none
  | _ + 1, [] => none
  | fuel + 1, c :: rest =>
    if c = 34 then some ([], rest)
    else if c = 92 then
      match rest with
      | e :: r2 =>
        if e = 34 ∨ e = 92 ∨ e = 47 then
          match parseStrBodyF fuel r2 with
          | some (cs, r) => some (e :: cs, r)
          | none => none
        else if e = 98 then (parseStrBodyF fuel r2).map (fun p => (8 :: p.1, p.2))
        else if e = 102 then (parseStrBodyF fuel r2).map (fun p => (12 :: p.1, p.2))
        else if e = 110 then (parseStrBodyF fuel r2).map (fun p => (10 :: p.1, p.2))
        else if e = 114 then (parseStrBodyF fuel r2).map (fun p => (13 :: p.1, p.2))
        else if e = 116 then (parseStrBodyF fuel r2).map (fun p => (9 :: p.1, p.2))
        else if e = 117 then
          match r2 with
          | h1 :: h2 :: h3 :: h4 :: r6 =>
            match hexVal h1, hexVal h2, hexVal h3, hexVal h4 with
            | some v1, some v2, some v3, some v4 =>
              (parseStrBodyF fuel r6).map
                (fun p => ((v1 * 4096 + v2 * 256 + v3 * 16 + v4) :: p.1, p.2))
            | _, _, _, _ => none
          | _ => none
        else none
      | [] => none
    else if c < 32 then none
    else (parseStrBodyF fuel rest).map (fun p => (c :: p.1, p.2))

/-- JSON string body with sufficient fuel. -/
def parseStrBody (s : Str) : Option (Str × Str) := parseStrBodyF (s.length + 1) s

/-- JSON number token: minus sign, integer part with no leading zero,
optional fraction, optional exponent.  Returns the token and the rest. -/
def parseNum (s : Str) : Option (Str × Str) :=
  let (sign, s1) :=
    match s with
    | 45 :: r => (([45] : Str), r)
    | _ => (([] : Str), s)
  match s1 with
  | 48 :: r =>
    let intPart : Str := [48]
    some (sign ++ intPart, r)
  | c :: _ =>
    if 49 ≤ c ∧ c ≤ 57 then
      let digits := s1.takeWhile isDigit
      some (sign ++ digits, s1.drop digits.length)
    else none
  | [] => none

/-- Fraction part of a JSON number, if present. -/
def parseFrac (s : Str) : Option (Str × Str) :=
  match s with
  | 46 :: r =>
    let digits := r.takeWhile isDigit
    if digits = [] then none else some (46 :: digits, r.drop digits.length)
  | _ => some ([], s)

/-- Exponent part of a JSON number, if present. -/
def parseExp (s : Str) : Option (Str × Str) :=
  match s with
  | e :: r =>
    if e = 101 ∨ e = 69 then
      let (sgn, r1) :=
        match r with
        | 43 :: r2 => (([43] : Str), r2)
        | 45 :: r2 => (([45] : Str), r2)
        | _ => (([] : Str), r)
      let digits := r1.takeWhile isDigit
      if digits = [] then none else some (e :: sgn ++ digits, r1.drop digits.length)
    else some ([], s)
  | [] => some ([], s)

/-- Full JSON number token. -/
def parseNumber (s : Str) : Option (Str × Str) :=
  match parseNum s with
  | some (t1, r1) =>
    match parseFrac r1 with
    | some (t2, r2) =>
      match parseExp r2 with
      | some (t3, r3) => some (t1 ++ t2 ++ t3, r3)
      | none => none
    | none => none
  | none => none

mutual

/-- JSON value parser; the fuel argument strictly exceeds the remaining
input length at every call, so it never runs out on real input. -/
def parseVal : Nat → Str → Option (Json × Str)
  | 0, _ => none
  | fuel + 1, s =>
    match s with
    | [] => none
    | c :: rest =>
      if c = 123 then
        let r := skipWs rest
        match r with
        | 125 :: r2 => some (.obj [], r2)
        | _ =>
          match parseMembers fuel r with
          | some (ms, r2) => some (.obj ms, r2)
          | none => none
      else if c = 91 then
        let r := skipWs rest
        match r with
        | 93 :: r2 => some (.arr [], r2)
        | _ =>
          match parseElems fuel r with
          | some (vs, r2) => some (.arr vs, r2)
          | none => none
      else if c = 34 then
        match parseStrBody rest with
        | some (cs, r) => some (.str cs, r)
        | none => none
      else if c = 116 then
        match rest with
        | 114 :: 117 :: 101 :: r => some (.bool true, r)
        | _ => none
      else if c = 102 then
        match rest with
        | 97 :: 108 :: 115 :: 101 :: r => some (.bool false, r)
        | _ => none
      else if c = 110 then
        match rest with
        | 117 :: 108 :: 108 :: r => some (.null, r)
        | _ => none
      else
        match parseNumber s with
        | some (tok, r) => some (.num tok, r)
        | none => none

/-- Members of a JSON object after the opening brace and whitespace. -/
def parseMembers : Nat → Str → Option (List (Str × Json) × Str)
  | 0, _ => none
  | fuel + 1, s =>
    match s with
    | 34 :: rest =>
      match parseStrBody rest with
      | some (key, r1) =>
        match skipWs r1 with
        | 58 :: r3 =>
          match parseVal fuel (skipWs r3) with
          | some (v, r4) =>
            match skipWs r4 with
            | 44 :: r6 =>
              match parseMembers fuel (skipWs r6) with
              | some (ms, r7) => some ((key, v) :: ms, r7)
              | none => none
            | 125 :: r6 => some ([(key, v)], r6)
            | _ => none
          | none => none
        | _ => none
      | none => none
    | _ => none

/-- Elements of a JSON array after the opening bracket and whitespace. -/
def parseElems : Nat → Str → Option (List Json × Str)
  | 0, _ => none
  | fuel + 1, s =>
    match parseVal fuel s with
    | some (v, r1) =>
      match skipWs r1 with
      | 44 :: r3 =>
        match parseElems fuel (skipWs r3) with
        | some (vs, r4) => some (v :: vs, r4)
        | none => none
      | 93 :: r3 => some ([v], r3)
      | _ => none
    | none => none

end

/-- JSON.parse as a partial function: some on success, none where it
throws. -/
def parseJsonText (s : Str) : Option Json :=
  match parseVal (s.length + 1) (skipWs s) with
  | some (j, rest) => if skipWs rest = [] then some j else none
  | none => none

/-- Does JSON.parse succeed on s. -/
def jsonOk (s : Str) : Bool := (parseJsonText s).isSome

/-- The failure sentinel returned by decryptPlaylist after an exhausted
scan: JSON.stringify of an object with one error field. -/
def errorJson : Str := ofStr "\x7b\"error\":\"Decryption failed\"\x7d"

/-- One candidate offset of the scan loop body shared by decryptPlaylist
in src/src/lib/bittv.ts and scan in src/decrypt.js: decode the suffix
with k0, trim, require a leading opening brace, truncate at the last
closing brace and test the candidate with JSON.parse. -/
def tryOffset (blob : Str) (i : Nat) : Option Str :=
  let sub := blob.drop i
  let decrypted := k0 sub
  let trimmed := jsTrim decrypted
  if trimmed.take 1 = [123] then
    match lastIndexOf trimmed 125 with
    | some lastBrace =>
      let candidate := trimmed.take (lastBrace + 1)
      if jsonOk candidate then some candidate else none
    | none => none
  else none

/-- The candidate offset order of decryptPlaylist: the common offset 98
first, then 0..999 ascending with 98 removed. -/
def offsetsToCheck : List Nat := 98 :: (List.range 1000).filter (· ≠ 98)

/-- The loop of decryptPlaylist: walk the offset list, abort the whole
scan with the failure sentinel at the first offset that is not below
the blob length, return the first successful candidate otherwise. -/
def dpGo (blob : Str) : List Nat → Str
  | [] => errorJson
  | i :: rest =>
    if blob.length ≤ i then errorJson
    else
      match tryOffset blob i with
      | some c => c
      | none => dpGo blob rest

/-- decryptPlaylist from src/src/lib/bittv.ts. -/
def decryptPlaylist (blob : Str) : Str := dpGo blob offsetsToCheck

/-- Generic first-success scan over a list of offsets, returning the
offset together with the candidate. -/
def scanGo (blob : Str) : List Nat → Option (Nat × Str)
  | [] => none
  | i :: rest =>
    match tryOffset blob i with
    | some c => some (i, c)
    | none => scanGo blob rest

/-- scan from src/decrypt.js: offsets 0..199 ascending, first success
returned as offset and candidate, none after exhaustion. -/
def scan (blob : Str) : Option (Nat × Str) := scanGo blob (List.range 200)

/-- The C2 claim wording read naturally: offsets in the order 98 first
then ascending, each skipped or stopped at the blob length but every
in-range offset tried. -/
def scanSpecC2 (blob : Str) : Option (Nat × Str) :=
  scanGo blob (offsetsToCheck.filter (· < blob.length))

/-- The amended scan: same order, but the scan aborts entirely at the
first offset in that order that is not below the blob length. -/
def scanAmendedC2 (blob : Str) : Option (Nat × Str) :=
  scanGo blob (offsetsToCheck.takeWhile (· < blob.length))

/-- JavaScript truthiness of a JSON value; a numeric token is falsy
exactly when its mantissa has no nonzero digit. -/
def jsTruthy (j : Json) : Bool :=
  match j with
  | .null => false
  | .bool b => b
  | .str s => !s.isEmpty
  | .num tok => (tok.takeWhile (fun c => c ≠ 101 ∧ c ≠ 69)).any (fun c => 49 ≤ c ∧ c ≤ 57)
  | .arr _ => true
  | .obj _ => true

/-- Property lookup on a parsed JSON object; for duplicate keys
JSON.parse keeps the last value, hence the reversed search. -/
def objLookup (fields : List (Str × Json)) (key : Str) : Option Json :=
  (fields.reverse.find? (fun p => p.1 = key)).map (·.2)

/-- Property access parsed.info used by fetchAndDecrypt; none models the
undefined result on non-objects. -/
def jsGetField (j : Json) (key : Str) : Option Json :=
  match j with
  | .obj fs => objLookup fs key
  | _ => none

/-- The expression parsed.info or empty list from fetchAndDecrypt. -/
def infoOrEmpty (j : Json) : Json :=
  match jsGetField j (ofStr "info") with
  | some v => if jsTruthy v then v else .arr []
  | none => .arr []

/-- The post-fetch processing of fetchAndDecrypt in src/src/lib/bittv.ts
applied to a fetched payload text: decrypt, JSON.parse (none models the
caught exception turning into a null return), extract parsed.info with
an empty-array default. -/
def fetchAndDecryptPost (text : Str) : Option Json :=
  match parseJsonText (decryptPlaylist text) with
  | some parsed => some (infoOrEmpty parsed)
  | none => none

/-- Is the value an empty JSON array. -/
def isEmptyArr (j : Json) : Bool :=
  match j with
  | .arr [] => true
  | _ => false

/-! Cache and refresh model for src/src/lib/bittv.ts.  Channels are the
parsed JSON records returned by fetchAndDecrypt. -/

/-- The snapshot assembled by performFetch. -/
structure PlaylistData where
  indonesia : List Json
  event : List Json
  version : Str
  lastUpdated : Nat
deriving Repr

/-- The module-level mutable state of bittv.ts: the cache slot, the last
fetch time, the in-flight background flag; bgInflight counts running
background refreshes (a ghost variable used to state the single-refresh
invariant). -/
structure BState where
  cache : Option PlaylistData
  lastFetchTime : Nat
  isUpdating : Bool
  bgInflight : Nat
deriving Repr

/-- CACHE_DURATION: five minutes in milliseconds. -/
def CACHE_DURATION : Nat := 300000

/-- The snapshot performFetch builds: failed category fetches (none)
degrade to empty lists, unconditionally. -/
def performFetchData (idChannels evChannels : Option (List Json)) (version : Str)
    (now : Nat) : PlaylistData :=
  ⟨idChannels.getD [], evChannels.getD [], version, now⟩

/-- performFetch from src/src/lib/bittv.ts given the results of the two
category fetches: assembles the snapshot, stores it in the cache slot,
updates lastFetchTime and returns the snapshot.  Nothing in its body can
throw once the fetch results are in hand, so the catch branch returning
null is unreachable in the model. -/
def performFetchStep (idChannels evChannels : Option (List Json)) (version : Str)
    (now : Nat) (s : BState) : Option PlaylistData × BState :=
  let data := performFetchData idChannels evChannels version now
  (some data, { s with cache := some data, lastFetchTime := now })

/-- Result of the synchronous prefix of fetchPlaylist: ret is the value
returned immediately from the cache (none when the call continues into a
foreground performFetch), state is the module state after the
synchronous part, spawned tells whether a background refresh was
started. -/
structure FPOut where
  ret : Option PlaylistData
  state : BState
  spawned : Bool
deriving Repr

/-- The synchronous part of fetchPlaylist from src/src/lib/bittv.ts
together with the synchronous check-and-set prefix of
triggerBackgroundUpdate (the single-threaded event loop runs both
without interruption up to the first await): fresh cache is returned
as is; a stale cache is returned while a background refresh is spawned
unless one is already in flight; a forced call or an empty cache falls
through to a foreground performFetch. -/
def fetchPlaylistSync (force : Bool) (now : Nat) (s : BState) : FPOut :=
  match s.cache with
  | some c =>
    if force then ⟨none, s, false⟩
    else if now - s.lastFetchTime < CACHE_DURATION then ⟨some c, s, false⟩
    else if s.isUpdating then ⟨some c, s, false⟩
    else ⟨some c, { s with isUpdating := true, bgInflight := s.bgInflight + 1 }, true⟩
  | none => ⟨none, s, false⟩

/-- Completion of a background refresh: apply performFetch to the state,
then the finally clause clears the in-flight flag. -/
def bgComplete (idChannels evChannels : Option (List Json)) (version : Str)
    (now : Nat) (s : BState) : BState :=
  let s2 := (performFetchStep idChannels evChannels version now s).2
  { s2 with isUpdating := false, bgInflight := s.bgInflight - 1 }

/-- Completion of a foreground (forced or cache-miss) performFetch; it
does not touch the in-flight flag. -/
def fgComplete (idChannels evChannels : Option (List Json)) (version : Str)
    (now : Nat) (s : BState) : BState :=
  (performFetchStep idChannels evChannels version now s).2

/-- States reachable from the initial module state by any interleaving
of fetchPlaylist calls, foreground fetch completions and background
refresh completions (the latter only while a background refresh is in
flight). -/
inductive Reach : BState → Prop where
  | init : Reach ⟨none, 0, false, 0⟩
  | call (force : Bool) (now : Nat) (s : BState) :
      Reach s → Reach (fetchPlaylistSync force now s).state
  | fg (idc evc : Option (List Json)) (v : Str) (now : Nat) (s : BState) :
      Reach s → Reach (fgComplete idc evc v now s)
  | bg (idc evc : Option (List Json)) (v : Str) (now : Nat) (s : BState) :
      Reach s → s.isUpdating = true → Reach (bgComplete idc evc v now s)

/-! The older playlist client kept at the top of src/src/lib/bittv.ts
(fetchPlaylist without versioning): it refuses to touch the cache when
both category fetches fail. -/

/-- The older PlaylistResponse shape. -/
structure PlaylistResponseV1 where
  country_name : Str
  country : Str
  info : List Json
deriving Repr

/-- Cache state of the older client. -/
structure V1State where
  cache : Option PlaylistResponseV1
  lastFetchTime : Nat
deriving Repr

/-- Update or append a field of a JSON object record, as the JavaScript
spread with a trailing literal key does. -/
def setFieldList : List (Str × Json) → Str → Json → List (Str × Json)
  | [], key, v => [(key, v)]
  | (k, w) :: rest, key, v =>
    if k = key then (k, v) :: rest else (k, w) :: setFieldList rest key v

/-- Spread with one overriding field.  Channel records coming from
JSON.parse arrays are objects; other shapes are left unchanged. -/
def jsSetField (j : Json) (key : Str) (v : Json) : Json :=
  match j with
  | .obj fs => .obj (setFieldList fs key v)
  | other => other

/-- Tag one channel record with category and source. -/
def tagChannel (cat src : Str) (ch : Json) : Json :=
  jsSetField (jsSetField ch (ofStr "category") (.str cat)) (ofStr "source") (.str src)

/-- The combine step of the older fetchPlaylist given the two category
results: both failing aborts with null and an untouched cache; otherwise
the channels of the successful categories are tagged, concatenated and
stored. -/
def fetchPlaylistV1Combine (idPl evPl : Option PlaylistResponseV1) (now : Nat)
    (s : V1State) : Option PlaylistResponseV1 × V1State :=
  match idPl, evPl with
  | none, none => (none, s)
  | _, _ =>
    let idChs :=
      match idPl with
      | some p => p.info.map (tagChannel (ofStr "indonesia") (ofStr "Indonesia"))
      | none => []
    let evChs :=
      match evPl with
      | some p => p.info.map (tagChannel (ofStr "event") (ofStr "Event"))
      | none => []
    let combined : PlaylistResponseV1 :=
      ⟨ofStr "Indonesia & Event", ofStr "ID+EV", idChs ++ evChs⟩
    (some combined, ⟨some combined, now⟩)

/-! Substring search on code unit lists, modelling String.prototype
includes, indexOf and the literal parts of the regular expressions used
by the route handlers. -/

/-- ASCII lowercase, for the case-insensitive regex flag. -/
def toLowerCU (c : Nat) : Nat := if 65 ≤ c ∧ c ≤ 90 then c + 32 else c

/-- Does pat match at the start of s (ci selects case-insensitive
comparison of ASCII letters). -/
def matchesAt (ci : Bool) (pat s : Str) : Bool :=
  if ci then (s.take pat.length).map toLowerCU = pat.map toLowerCU
  else s.take pat.length = pat

/-- First index at or after the current position where pat matches. -/
def findSubGo (ci : Bool) (pat : Str) : Str → Nat → Option Nat
  | [], idx => if matchesAt ci pat [] then some idx else none
  | s@(_ :: rest), idx =>
    if matchesAt ci pat s then some idx else findSubGo ci pat rest (idx + 1)

/-- First match position of pat in s. -/
def findSub (ci : Bool) (pat s : Str) : Option Nat := findSubGo ci pat s 0

/-- First match position of pat in s at or after start. -/
def findSubFrom (ci : Bool) (pat s : Str) (start : Nat) : Option Nat :=
  (findSub ci pat (s.drop start)).map (· + start)

/-- String.prototype.includes. -/
def includesSub (s pat : Str) : Bool := (findSub false pat s).isSome

/-- Number of positions where pat matches in s. -/
def countSub (pat : Str) : Str → Nat
  | [] => if matchesAt false pat [] then 1 else 0
  | s@(_ :: rest) => (if matchesAt false pat s then 1 else 0) + countSub pat rest

/-! Error responses of the two proxy catch handlers (C9). -/

/-- JSON.stringify escaping of a string value: quote, backslash, the
five short escapes, other control characters and lone surrogates as
unicode escapes. -/
def hexDigitCU (n : Nat) : Nat := if n < 10 then 48 + n else 87 + n

/-- Unicode escape of one code unit. -/
def uEsc (c : Nat) : Str :=
  [92, 117, hexDigitCU (c / 4096 % 16), hexDigitCU (c / 256 % 16),
   hexDigitCU (c / 16 % 16), hexDigitCU (c % 16)]

/-- Escape one ordinary code unit. -/
def escChar (c : Nat) : Str :=
  if c = 34 then [92, 34]
  else if c = 92 then [92, 92]
  else if c = 8 then [92, 98]
  else if c = 9 then [92, 116]
  else if c = 10 then [92, 110]
  else if c = 12 then [92, 102]
  else if c = 13 then [92, 114]
  else if c < 32 then uEsc c
  else [c]

/-- Is c a high surrogate. -/
def isHighSurr (c : Nat) : Bool := 55296 ≤ c ∧ c ≤ 56319

/-- Is c a low surrogate. -/
def isLowSurr (c : Nat) : Bool := 56320 ≤ c ∧ c ≤ 57343

/-- Well-formed JSON.stringify string escaping. -/
def jsonEscape : Str → Str
  | [] => []
  | [c] => if isHighSurr c ∨ isLowSurr c then uEsc c else escChar c
  | c :: d :: r2 =>
    if isHighSurr c then
      if isLowSurr d then c :: d :: jsonEscape r2
      else uEsc c ++ jsonEscape (d :: r2)
    else if isLowSurr c then uEsc c ++ jsonEscape (d :: r2)
    else escChar c ++ jsonEscape (d :: r2)

/-- The expression e.message or the Unknown error fallback. -/
def errMessageOf (m : Str) : Str := if m.isEmpty then ofStr "Unknown error" else m

/-- The network-failure heuristic of the main proxy catch handler. -/
def isNetErr (m : Str) : Bool :=
  includesSub m (ofStr "fetch") ∨ includesSub m (ofStr "network") ∨ includesSub m (ofStr "connect")

/-- JSON.stringify of the 502 body of src/src/app/api/playlist/proxy/route.ts. -/
def proxyNetworkBody (details : Str) : Str :=
  ofStr "\x7b\"error\":\"Network/CDN Error\",\"message\":\"Unable to reach streaming source. This may be due to: geo-blocking, CDN issues, expired token, or connectivity problems.\",\"details\":\"" ++
  jsonEscape details ++
  ofStr "\",\"suggestion\":\"Try a different channel or wait a moment and refresh.\"\x7d"

/-- The catch handler of handleRequest in
src/src/app/api/playlist/proxy/route.ts: status and body. -/
def proxyCatch (msg : Str) : Nat × Str :=
  let errorMessage := errMessageOf msg
  if isNetErr errorMessage then (502, proxyNetworkBody errorMessage)
  else (500, ofStr "\x7b\"error\":\"Proxy Error\",\"message\":\"" ++ jsonEscape errorMessage ++ ofStr "\"\x7d")

/-- The catch handler of handleRequest in
src/src/app/api/playlist/stream/route.ts: 499 with an empty body on a
client abort, otherwise 500 with a JSON body exposing message, stack and
target url. -/
def streamCatch (name msg stack url : Str) : Nat × Str :=
  if name = ofStr "AbortError" then (499, [])
  else
    (500,
      ofStr "\x7b\"error\":\"" ++ jsonEscape msg ++
      ofStr "\",\"stack\":\"" ++ jsonEscape stack ++
      ofStr "\",\"url\":\"" ++ jsonEscape url ++ ofStr "\"\x7d")

/-! A model of the WHATWG URL parser (the platform new URL) restricted
to the shapes this repository feeds it: host-based special schemes and
opaque non-special schemes.  Not modelled: percent-encoding
normalization, IDNA host canonicalization, IPv4/IPv6 forms, userinfo
serialization and percent-encoded dot segments; none of these occur in
the URLs the routes construct. -/

/-- ASCII letter. -/
def isAlphaCU (c : Nat) : Bool := (65 ≤ c ∧ c ≤ 90) ∨ (97 ≤ c ∧ c ≤ 122)

/-- Character allowed inside a URL scheme. -/
def isSchemeChar (c : Nat) : Bool :=
  isAlphaCU c ∨ isDigit c ∨ c = 43 ∨ c = 45 ∨ c = 46

/-- Split a leading scheme and colon off a URL string; the scheme is
lowercased. -/
def schemeSplit (s : Str) : Option (Str × Str) :=
  match s with
  | [] => none
  | c :: _ =>
    if isAlphaCU c then
      let sch := s.takeWhile isSchemeChar
      match s.drop sch.length with
      | 58 :: r => some (sch.map toLowerCU, r)
      | _ => none
    else none

/-- The special (host-based) schemes of the WHATWG standard apart from
file. -/
def isSpecialScheme (sch : Str) : Bool :=
  sch = ofStr "http" ∨ sch = ofStr "https" ∨ sch = ofStr "ws" ∨
  sch = ofStr "wss" ∨ sch = ofStr "ftp"

/-- Default port of a special scheme. -/
def defaultPort (sch : Str) : Nat :=
  if sch = ofStr "https" ∨ sch = ofStr "wss" then 443
  else if sch = ofStr "ftp" then 21
  else 80

/-- Components of a parsed host-based URL. -/
structure UrlParts where
  scheme : Str
  host : Str
  port : Option Nat
  path : List Str
  query : Option Str
  frag : Option Str
deriving Repr

/-- Result of parsing an absolute URL. -/
inductive UrlParse where
  | special (p : UrlParts)
  | opaquePath (scheme : Str) (rest : Str)
deriving Repr

/-- Split a string at the first occurrence of a separator unit. -/
def splitAtFirst (sep : Nat) (s : Str) : Str × Option Str :=
  match s.findIdx? (· = sep) with
  | some i => (s.take i, some (s.drop (i + 1)))
  | none => (s, none)

/-- Split into separator-delimited chunks, keeping empty chunks, as
String.prototype.split with a one-unit separator does. -/
def splitSep (sep : Nat) : Str → List Str
  | [] => [[]]
  | c :: rest =>
    if c = sep then [] :: splitSep sep rest
    else
      match splitSep sep rest with
      | seg :: segs => (c :: seg) :: segs
      | [] => [[c]]

/-- Dot-segment removal on a path segment list; a trailing dot or
double dot leaves a trailing empty segment (a directory path). -/
def normSegsGo : List Str → List Str → List Str
  | [], acc => acc.reverse
  | seg :: rest, acc =>
    if seg = ofStr "." then
      match rest with
      | [] => (([] : Str) :: acc).reverse
      | _ => normSegsGo rest acc
    else if seg = ofStr ".." then
      match rest with
      | [] => (([] : Str) :: acc.drop 1).reverse
      | _ => normSegsGo rest (acc.drop 1)
    else normSegsGo rest (seg :: acc)

/-- Dot-segment removal. -/
def normSegs (segs : List Str) : List Str := normSegsGo segs []

/-- Decimal digits of a natural number as code units. -/
def natToStr (n : Nat) : Str := ofStr (toString n)

/-- Numeric value of a digit string. -/
def digitsVal (s : Str) : Nat := s.foldl (fun a c => a * 10 + (c - 48)) 0

/-- Host and optional port from an authority chunk; userinfo up to the
last at sign is dropped, the host is lowercased, an empty host or a
non-numeric or overflowing port is a parse failure, default ports are
normalized away by the caller. -/
def parseHostPort (auth : Str) : Option (Str × Option Nat) :=
  let hostport :=
    match lastIndexOf auth 64 with
    | some i => auth.drop (i + 1)
    | none => auth
  let host := hostport.takeWhile (· ≠ 58)
  if host = [] then none
  else if host.length = hostport.length then some (host.map toLowerCU, none)
  else
    let port := hostport.drop (host.length + 1)
    if port = [] then some (host.map toLowerCU, none)
    else if port.all isDigit ∧ digitsVal port ≤ 65535 then
      some (host.map toLowerCU, some (digitsVal port))
    else none

/-- Parse the remainder of a special-scheme URL after the colon. -/
def parseSpecialAfterScheme (sch rest : Str) : Option UrlParts :=
  let r1 := rest.dropWhile (fun c => c = 47 ∨ c = 92)
  let (beforeFrag, frag) := splitAtFirst 35 r1
  let (beforeQuery, query) := splitAtFirst 63 beforeFrag
  let auth := beforeQuery.takeWhile (fun c => c ≠ 47 ∧ c ≠ 92)
  let pathPart := (beforeQuery.drop auth.length).map (fun c => if c = 92 then 47 else c)
  match parseHostPort auth with
  | none => none
  | some (host, port) =>
    let port2 := if port = some (defaultPort sch) then none else port
    let segs := normSegs ((splitSep 47 pathPart).drop 1)
    some ⟨sch, host, port2, segs, query, frag⟩

/-- The platform URL constructor on a single absolute string: none
models the thrown TypeError. -/
def jsUrlParse (s : Str) : Option UrlParse :=
  match schemeSplit s with
  | none => none
  | some (sch, rest) =>
    if isSpecialScheme sch then (parseSpecialAfterScheme sch rest).map .special
    else some (.opaquePath sch rest)

/-- Serialize a path segment list with a leading slash. -/
def serializeSegs (segs : List Str) : Str := 47 :: List.intercalate ([47] : Str) segs

/-- URL serialization. -/
def serializeUrl : UrlParse → Str
  | .opaquePath sch rest => sch ++ [58] ++ rest
  | .special p =>
    p.scheme ++ ofStr "://" ++ p.host ++
    (match p.port with
     | some n => 58 :: natToStr n
     | none => []) ++
    serializeSegs p.path ++
    (match p.query with
     | some q => 63 :: q
     | none => []) ++
    (match p.frag with
     | some f => 35 :: f
     | none => [])

/-- Resolve a schemeless reference against a parsed special base. -/
def resolveSpecial (bp : UrlParts) (rel : Str) : Option Str :=
  match rel with
  | [] => some (serializeUrl (.special { bp with frag := none }))
  | 35 :: f => some (serializeUrl (.special { bp with frag := some f }))
  | _ =>
    if rel.take 2 = [47, 47] ∨ rel.take 2 = [92, 92] ∨
       rel.take 2 = [47, 92] ∨ rel.take 2 = [92, 47] then
      (parseSpecialAfterScheme bp.scheme rel).map (fun p => serializeUrl (.special p))
    else
      let (beforeFrag, frag) := splitAtFirst 35 rel
      let (beforeQuery, query) := splitAtFirst 63 beforeFrag
      let pathPart := beforeQuery.map (fun c => if c = 92 then 47 else c)
      match pathPart with
      | [] => some (serializeUrl (.special { bp with query := query, frag := frag }))
      | 47 :: _ =>
        let segs := normSegs ((splitSep 47 pathPart).drop 1)
        some (serializeUrl (.special { bp with path := segs, query := query, frag := frag }))
      | _ =>
        let segs := normSegs (bp.path.dropLast ++ splitSep 47 pathPart)
        some (serializeUrl (.special { bp with path := segs, query := query, frag := frag }))

/-- The two-argument URL constructor new URL(rel, base): the base is
parsed first and must be valid; a reference carrying the same special
scheme as the base without authority slashes resolves as relative, per
the WHATWG special relative-or-authority state. -/
def resolveURL (rel base : Str) : Option Str :=
  match jsUrlParse base with
  | some (.special bp) =>
    match schemeSplit rel with
    | some (sch, rest) =>
      if isSpecialScheme sch then
        if sch = bp.scheme ∧
           ¬(rest.take 2 = [47, 47] ∨ rest.take 2 = [92, 92] ∨
             rest.take 2 = [47, 92] ∨ rest.take 2 = [92, 47]) then
          resolveSpecial bp rest
        else (parseSpecialAfterScheme sch rest).map (fun p => serializeUrl (.special p))
      else some (serializeUrl (.opaquePath sch rest))
    | none => resolveSpecial bp rel
  | some (.opaquePath _ _) => (jsUrlParse rel).map serializeUrl
  | none => none

/-! The pre-fetch phase of handleRequest in
src/src/app/api/playlist/stream/route.ts (C10). -/

/-- Outcome of the checks performed before any outbound header is
constructed and before any upstream request. -/
inductive StreamPreOutcome where
  | missingUrl
  | invalidUrl
  | proceed (u : Str)
deriving Repr, DecidableEq

/-- The handler prefix: missing url parameter, then the new URL(url)
validity check inside try/catch, then the main block. -/
def streamPre (urlParam : Option Str) : StreamPreOutcome :=
  match urlParam with
  | none => .missingUrl
  | some u => if (jsUrlParse u).isSome then .proceed u else .invalidUrl

/-- The early response produced by the prefix; none means handling
continues into header construction and the upstream fetch. -/
def streamPreResponse : StreamPreOutcome → Option (Nat × Str)
  | .missingUrl => some (400, ofStr "Missing 'url' parameter")
  | .invalidUrl => some (400, ofStr "Invalid URL")
  | .proceed _ => none

/-- Whether the outcome reaches the header-construction block. -/
def streamPreHeadersBuilt : StreamPreOutcome → Bool
  | .proceed _ => true
  | _ => false

/-- Upstream requests issued by the outcome. -/
def streamPreFetches : StreamPreOutcome → List Str
  | .proceed u => [u]
  | _ => []

/-! The DASH ClearKey rewriting of the proxy routes (C3): the regex
driven ContentProtection strip, default_KID harvest and ClearKey
injection shared verbatim by src/src/app/api/playlist/proxy/route.ts
and the catch-all variant, plus the BaseURL step of the former. -/

/-- Literal head of the ContentProtection open tag. -/
def cpOpenPat : Str := ofStr "<ContentProtection"

/-- Literal ContentProtection close tag. -/
def cpClosePat : Str := ofStr "</ContentProtection>"

/-- Global replacement with the empty string of the alternation regex
over ContentProtection blocks: at each leftmost literal open, the lazy
block alternative reaches the earliest close tag anywhere after it; only
when no close tag follows does the self-closing alternative reach the
earliest slash-angle; with neither terminator the scan is over.  Fuel is
a Lean recursion artifice; every step consumes at least one unit. -/
def stripCPF : Nat → Str → Str
  | 0, s => s
  | fuel + 1, s =>
    match findSub true cpOpenPat s with
    | none => s
    | some p =>
      let tailStart := p + cpOpenPat.length
      match findSubFrom true cpClosePat s tailStart with
      | some e => s.take p ++ stripCPF fuel (s.drop (e + cpClosePat.length))
      | none =>
        match findSubFrom false (ofStr "/>") s tailStart with
        | some e2 => s.take p ++ stripCPF fuel (s.drop (e2 + 2))
        | none => s

/-- ContentProtection stripping with sufficient fuel. -/
def stripCP (s : Str) : Str := stripCPF (s.length + 1) s

/-- Literal part of the default_KID harvest regex. -/
def kidPat : Str := ofStr "default_KID=\""

/-- First match of the default_KID harvest regex: the optional cenc
prefix does not change the captured group, so the capture is the
nonempty quote-free run after the leftmost literal that is followed by a
closing quote; a failed capture moves the search past that position. -/
def harvestKidF : Nat → Str → Option Str
  | 0, _ => none
  | fuel + 1, s =>
    match findSub true kidPat s with
    | none => none
    | some q =>
      let rest := s.drop (q + kidPat.length)
      let captured := rest.takeWhile (· ≠ 34)
      if captured ≠ [] ∧ captured.length < rest.length then some captured
      else harvestKidF fuel (s.drop (q + 1))

/-- default_KID harvest with sufficient fuel. -/
def harvestKid (s : Str) : Option Str := harvestKidF (s.length + 1) s

/-- The kidStr template literal: the harvested cenc:default_KID
attribute together with its namespace declaration, or empty. -/
def kidStrOf (text : Str) : Str :=
  match harvestKid text with
  | some kid =>
    ofStr " cenc:default_KID=\"" ++ kid ++ ofStr "\" xmlns:cenc=\"urn:mpeg:cenc:2013\""
  | none => []

/-- Literal head of the AdaptationSet open tag (this regex has no
case-insensitive flag). -/
def adaptOpenPat : Str := ofStr "<AdaptationSet"

/-- Global replacement appending a newline and the ClearKey element
after every AdaptationSet open tag: the greedy attribute run extends to
the next closing angle, which must exist for a match. -/
def injectCKF : Nat → Str → Str → Str
  | 0, _, s => s
  | fuel + 1, ck, s =>
    match findSub false adaptOpenPat s with
    | none => s
    | some p =>
      let rest := s.drop (p + adaptOpenPat.length)
      let attrs := rest.takeWhile (· ≠ 62)
      if attrs.length < rest.length then
        let matchEnd := p + adaptOpenPat.length + attrs.length + 1
        s.take matchEnd ++ [10] ++ ck ++ injectCKF fuel ck (s.drop matchEnd)
      else s

/-- ClearKey injection with sufficient fuel. -/
def injectCK (ck s : Str) : Str := injectCKF (s.length + 1) ck s

/-- The clearKeyProtection template literal. -/
def clearKeyLine (kidStr : Str) : Str :=
  ofStr "      <ContentProtection schemeIdUri=\"urn:uuid:e2719d58-a985-b3c9-781a-0070aaff49d2\" value=\"ClearKey\"" ++
  kidStr ++ ofStr "/>"

/-- The drm equals clearkey branch shared by both proxy route files:
harvest the KID from the original text, strip every ContentProtection
match, then inject the ClearKey element into every AdaptationSet open
tag when one is present. -/
def clearkeyTransform (text : Str) : Str :=
  let kidStr := kidStrOf text
  let stripped := stripCP text
  let ck := clearKeyLine kidStr
  if includesSub stripped adaptOpenPat then injectCK ck stripped else stripped

/-- Line terminators that the dot of a regex without the s flag does not
match. -/
def isLineTerm (c : Nat) : Bool := c = 10 ∨ c = 13 ∨ c = 8232 ∨ c = 8233

/-- End position of the first MPD open tag match. -/
def findMpdTag (s : Str) : Option Nat :=
  match findSub true (ofStr "<MPD") s with
  | none => none
  | some p =>
    let rest := s.drop (p + 4)
    let attrs := rest.takeWhile (· ≠ 62)
    if attrs.length < rest.length then some (p + 4 + attrs.length + 1) else none

/-- Global BaseURL replacement of proxy/route.ts: lazy content up to the
earliest close tag, the dot crossing no line terminator; absolute
content is kept whole, relative content is prefixed with the upstream
base directory. -/
def replaceBaseUrlsF : Nat → Str → Str → Str
  | 0, _, s => s
  | fuel + 1, baseUrl, s =>
    match findSub false (ofStr "<BaseURL>") s with
    | none => s
    | some p =>
      let contentStart := p + 9
      match findSubFrom false (ofStr "</BaseURL>") s contentStart with
      | none => s
      | some e =>
        let content := (s.take e).drop contentStart
        if content.any isLineTerm then
          s.take (p + 1) ++ replaceBaseUrlsF fuel baseUrl (s.drop (p + 1))
        else
          let trimmed := jsTrim content
          let replacement :=
            if (ofStr "http").isPrefixOf trimmed then (s.take (e + 10)).drop p
            else ofStr "<BaseURL>" ++ baseUrl ++ trimmed ++ ofStr "</BaseURL>"
          s.take p ++ replacement ++ replaceBaseUrlsF fuel baseUrl (s.drop (e + 10))

/-- BaseURL replacement with sufficient fuel. -/
def replaceBaseUrls (baseUrl s : Str) : Str := replaceBaseUrlsF (s.length + 1) baseUrl s

/-- The full MPD branch of handleRequest in
src/src/app/api/playlist/proxy/route.ts: inject a BaseURL element after
the MPD open tag when none exists, otherwise absolutize existing ones;
then apply the ClearKey transform when the drm directive says so. -/
def mpdRewriteProxyRoute (text baseUrl : Str) (drm : Option Str) : Str :=
  let t1 :=
    if includesSub text (ofStr "<BaseURL>") then replaceBaseUrls baseUrl text
    else
      match findMpdTag text with
      | some tagEnd =>
        text.take tagEnd ++ ofStr "\n  <BaseURL>" ++ baseUrl ++ ofStr "</BaseURL>" ++ text.drop tagEnd
      | none => text
  if drm = some (ofStr "clearkey") then clearkeyTransform t1 else t1

/-! The HLS rewrite of src/src/app/api/playlist/stream/route.ts (C4). -/

/-- String.prototype.split on the line feed. -/
def splitLF (s : Str) : List Str := splitSep 10 s

/-- Array.prototype.join with the line feed. -/
def joinLF (ls : List Str) : Str := List.intercalate ([10] : Str) ls

/-- First match of the URI attribute regex: the literal head, a
nonempty quote-free capture, a closing quote; a failed capture moves the
search past that position.  Returns match position and capture. -/
def findUriAttrF : Nat → Str → Nat → Option (Nat × Str)
  | 0, _, _ => none
  | fuel + 1, s, base0 =>
    match findSub false (ofStr "URI=\"") s with
    | none => none
    | some p =>
      let rest := s.drop (p + 5)
      let uri := rest.takeWhile (· ≠ 34)
      if uri ≠ [] ∧ uri.length < rest.length then some (base0 + p, uri)
      else findUriAttrF fuel (s.drop (p + 1)) (base0 + p + 1)

/-- The non-global URI attribute replacement of the EXT-X-KEY and
EXT-X-MAP branches: absolute URIs are kept, relative ones resolved
against the manifest directory, unresolvable ones kept. -/
def replaceUriAttr (base t : Str) : Str :=
  match findUriAttrF (t.length + 1) t 0 with
  | none => t
  | some (p, uri) =>
    let newUri :=
      if (ofStr "http").isPrefixOf uri then uri
      else
        match resolveURL uri base with
        | some u => u
        | none => uri
    t.take p ++ ofStr "URI=\"" ++ newUri ++ [34] ++ t.drop (p + 5 + uri.length + 1)

/-- One line of the HLS rewrite in stream/route.ts: blank lines pass,
tag lines pass except the EXT-X-KEY and EXT-X-MAP URI rewrite applied to
the trimmed line, absolute segment lines are replaced by their trimmed
form, relative segment lines are resolved against the manifest
directory with the trimmed line as the fallback. -/
def rewriteLineStream (base line : Str) : Str :=
  let t := jsTrim line
  if t.isEmpty then line
  else if t.take 1 = [35] then
    if (ofStr "#EXT-X-KEY:").isPrefixOf t ∨ (ofStr "#EXT-X-MAP:").isPrefixOf t then
      replaceUriAttr base t
    else line
  else if (ofStr "http").isPrefixOf t then t
  else
    match resolveURL t base with
    | some u => u
    | none => t

/-- The HLS branch of handleRequest in stream/route.ts. -/
def rewriteHlsStream (base text : Str) : Str :=
  joinLF ((splitLF text).map (rewriteLineStream base))

/-- The amended C4 description of one HLS line, worded from the amended
claim: a tag line keeps its bytes unless it is an EXT-X-KEY or
EXT-X-MAP tag, whose trimmed form gets its URI attribute value resolved
to an absolute URL in place; a blank line keeps its bytes; a non-comment
line becomes its resolved absolute URL itself, with no proxy wrapping
and no impersonation or DRM parameters, the trimmed line standing in
when it is already absolute or unresolvable. -/
def hlsLineSpecC4 (base line : Str) : Str :=
  let t := jsTrim line
  if (ofStr "#").isPrefixOf t then
    if (ofStr "#EXT-X-KEY:").isPrefixOf t ∨ (ofStr "#EXT-X-MAP:").isPrefixOf t then
      replaceUriAttr base t
    else line
  else if t = [] then line
  else if (ofStr "http").isPrefixOf t then t
  else (resolveURL t base).getD t

/-! Concrete inputs used by the counterexamples and witnesses. -/

/-- A four-unit blob that decodes to an empty JSON object at offset 0
(the codec inverse of the two-unit string of an open and close brace). -/
def shortBlob : Str := ofStr "mh1c"

/-- One hundred question marks: no offset yields a candidate. -/
def noiseBlob : Str := List.replicate 100 63

/-- The C3 manifest: one AdaptationSet with one Widevine
ContentProtection block carrying a cenc:default_KID. -/
def mpdC3 : Str := ofStr "<MPD xmlns=\"urn:mpeg:dash:schema:mpd:2011\" type=\"static\"><BaseURL>http://cdn.ex/live/</BaseURL><Period><AdaptationSet mimeType=\"video/mp4\"><ContentProtection schemeIdUri=\"urn:uuid:edef8ba9-79d6-4ace-a3c8-27dcd51d21ed\" cenc:default_KID=\"10aa77ec\"><cenc:pssh>AAAA</cenc:pssh></ContentProtection><Representation id=\"1\"/></AdaptationSet></Period></MPD>"

/-- Base directory of the C3 manifest URL. -/
def mpdC3Base : Str := ofStr "http://cdn.ex/live/"

/-- Expected C3 rewrite output. -/
def mpdC3Out : Str := ofStr "<MPD xmlns=\"urn:mpeg:dash:schema:mpd:2011\" type=\"static\"><BaseURL>http://cdn.ex/live/</BaseURL><Period><AdaptationSet mimeType=\"video/mp4\">\n      <ContentProtection schemeIdUri=\"urn:uuid:e2719d58-a985-b3c9-781a-0070aaff49d2\" value=\"ClearKey\" cenc:default_KID=\"10aa77ec\" xmlns:cenc=\"urn:mpeg:cenc:2013\"/><Representation id=\"1\"/></AdaptationSet></Period></MPD>"

/-- A second C3 manifest with a self-closing Widevine
ContentProtection element and no KID. -/
def mpdC3b : Str := ofStr "<MPD><Period><AdaptationSet id=\"a\"><ContentProtection schemeIdUri=\"urn:uuid:edef8ba9-79d6-4ace-a3c8-27dcd51d21ed\"/><Representation id=\"r\"/></AdaptationSet></Period></MPD>"

/-- Expected ClearKey transform of the self-closing variant. -/
def mpdC3bOut : Str := ofStr "<MPD><Period><AdaptationSet id=\"a\">\n      <ContentProtection schemeIdUri=\"urn:uuid:e2719d58-a985-b3c9-781a-0070aaff49d2\" value=\"ClearKey\"/><Representation id=\"r\"/></AdaptationSet></Period></MPD>"

/-- A third C3 manifest with two AdaptationSets, the first protected by
a Widevine block element with a KID, the second by a self-closing
Widevine element. -/
def mpdC3c : Str := ofStr "<MPD><Period><AdaptationSet mimeType=\"video/mp4\"><ContentProtection schemeIdUri=\"urn:uuid:edef8ba9-79d6-4ace-a3c8-27dcd51d21ed\" cenc:default_KID=\"20bb88fd\"><cenc:pssh>BBBB</cenc:pssh></ContentProtection><Representation id=\"v\"/></AdaptationSet><AdaptationSet mimeType=\"audio/mp4\"><ContentProtection schemeIdUri=\"urn:uuid:edef8ba9-79d6-4ace-a3c8-27dcd51d21ed\"/><Representation id=\"a\"/></AdaptationSet></Period></MPD>"

/-- Expected ClearKey transform of the two-AdaptationSet manifest: one
ClearKey element inside each AdaptationSet, both carrying the harvested
KID. -/
def mpdC3cOut : Str := ofStr "<MPD><Period><AdaptationSet mimeType=\"video/mp4\">\n      <ContentProtection schemeIdUri=\"urn:uuid:e2719d58-a985-b3c9-781a-0070aaff49d2\" value=\"ClearKey\" cenc:default_KID=\"20bb88fd\" xmlns:cenc=\"urn:mpeg:cenc:2013\"/><Representation id=\"v\"/></AdaptationSet><AdaptationSet mimeType=\"audio/mp4\">\n      <ContentProtection schemeIdUri=\"urn:uuid:e2719d58-a985-b3c9-781a-0070aaff49d2\" value=\"ClearKey\" cenc:default_KID=\"20bb88fd\" xmlns:cenc=\"urn:mpeg:cenc:2013\"/><Representation id=\"a\"/></AdaptationSet></Period></MPD>"

/-- The C4 manifest from the specification test. -/
def hlsTextC4 : Str := ofStr "#EXTM3U\n#EXT-X-VERSION:3\nseg1.ts\nhttp://abs/seg2.ts\n#EXT-X-ENDLIST"

/-- Directory portion of the C4 manifest URL. -/
def hlsBaseC4 : Str := ofStr "http://host/path/"

/-- Expected C4 rewrite output of the stream route. -/
def hlsOutC4 : Str := ofStr "#EXTM3U\n#EXT-X-VERSION:3\nhttp://host/path/seg1.ts\nhttp://abs/seg2.ts\n#EXT-X-ENDLIST"

/-- The initial module state of bittv.ts. -/
def bInit : BState := ⟨none, 0, false, 0⟩

/-- A reachable state holding a cached snapshot fetched at time 7. -/
def c8State : BState := fgComplete (some []) (some []) (ofStr "v216") 7 bInit

/-- The snapshot cached in c8State. -/
def c8Data : PlaylistData := performFetchData (some []) (some []) (ofStr "v216") 7

/-- A previous snapshot with one Indonesia channel. -/
def oldSnapC5 : PlaylistData := ⟨[Json.null], [], ofStr "v215", 1⟩

/-- A state caching that snapshot. -/
def s5C5 : BState := ⟨some oldSnapC5, 1, false, 0⟩

/-! Shared lemmas. -/

/-- The decryptPlaylist loop equals the first-success scan over the
offset order truncated at the first offset not below the blob length. -/
lemma dpGo_eq_scanGo (blob : Str) (l : List Nat) :
    dpGo blob l =
      (match scanGo blob (l.takeWhile (· < blob.length)) with
       | some p => p.2
       | none => errorJson) := by
  induction l with
  | nil => rfl
  | cons i rest ih =>
    by_cases h : blob.length ≤ i
    · have hf : decide (i < blob.length) = false := by simp; omega
      simp [dpGo, h, List.takeWhile_cons, hf, scanGo]
    · have ht : decide (i < blob.length) = true := by simp; omega
      cases htry : tryOffset blob i with
      | some c => simp [dpGo, h, List.takeWhile_cons, ht, scanGo, htry]
      | none => simp [dpGo, h, List.takeWhile_cons, ht, scanGo, htry, ih]

/-- Skipping one leading code unit outside the base64 alphabet does not
change the decoded bytes. -/
lemma b64Decode_cons_skip (c : Nat) (v : Str) (h1 : sextet (c % 256) = none)
    (h2 : c % 256 ≠ 61) : b64Decode (c :: v) = b64Decode v := by
  simp [b64Decode, List.map_cons, List.takeWhile_cons, h2, List.filterMap_cons, h1]

/-- A pattern matching at the front still matches after extending the
text on the right. -/
lemma matchesAt_append (pat s t : Str) (h : matchesAt false pat s = true) :
    matchesAt false pat (s ++ t) = true := by
  simp [matchesAt] at h ⊢
  have hlen : pat.length ≤ s.length := by
    have := congrArg List.length h
    simp at this
    omega
  rw [List.take_append_of_le_length hlen]
  exact h

/-- Whether findSubGo finds a match does not depend on the index
accumulator. -/
lemma findSubGo_isSome_idx (pat : Str) :
    ∀ (s : Str) (i j : Nat),
      (findSubGo false pat s i).isSome = (findSubGo false pat s j).isSome := by
  intro s
  induction s with
  | nil =>
    intro i j
    by_cases h : matchesAt false pat [] <;> simp [findSubGo, h]
  | cons c rest ih =>
    intro i j
    by_cases h : matchesAt false pat (c :: rest)
    · simp [findSubGo, h]
    · simp [findSubGo, h]
      exact ih _ _

/-- includes is stable under prepending. -/
lemma includes_append_left (a s x : Str) (h : includesSub s x = true) :
    includesSub (a ++ s) x = true := by
  induction a with
  | nil => simpa using h
  | cons c a ih =>
    show (findSubGo false x (c :: (a ++ s)) 0).isSome = true
    by_cases hm : matchesAt false x (c :: (a ++ s))
    · simp [findSubGo, hm]
    · simp [findSubGo, hm]
      rw [findSubGo_isSome_idx x (a ++ s) 1 0]
      exact ih

/-- includes is stable under appending. -/
lemma includes_append_right (s t x : Str) (h : includesSub s x = true) :
    includesSub (s ++ t) x = true := by
  induction s with
  | nil =>
    have hx : matchesAt false x [] = true := by
      by_contra hc
      simp [includesSub, findSub, findSubGo, Bool.not_eq_true] at h hc
      simp [hc] at h
    have hx2 : x = [] := by
      simpa [matchesAt] using hx
    subst hx2
    cases t with
    | nil => simpa using h
    | cons c r => simp [includesSub, findSub, findSubGo, matchesAt]
  | cons c s ih =>
    by_cases hm : matchesAt false x (c :: s)
    · have : matchesAt false x ((c :: s) ++ t) = true := matchesAt_append _ _ _ hm
      simp only [List.cons_append] at this
      show (findSubGo false x (c :: (s ++ t)) 0).isSome = true
      simp [findSubGo, this]
    · have hs : includesSub s x = true := by
        have h2 := h
        simp only [includesSub, findSub, findSubGo, hm] at h2
        simp only [if_neg, Bool.false_eq_true] at h2
        rw [includesSub, findSub, findSubGo_isSome_idx x s 0 1]
        simpa using h2
      have := ih hs
      show (findSubGo false x (c :: (s ++ t)) 0).isSome = true
      by_cases hm2 : matchesAt false x (c :: (s ++ t))
      · simp [findSubGo, hm2]
      · simp [findSubGo, hm2]
        rw [findSubGo_isSome_idx x (s ++ t) 1 0]
        exact this

/-- A string includes itself followed by anything. -/
lemma includes_self_append (x b : Str) : includesSub (x ++ b) x = true := by
  have hm : matchesAt false x (x ++ b) = true := by
    simp [matchesAt, List.take_left]
  cases hxb : x ++ b with
  | nil =>
    rw [hxb] at hm
    simp [includesSub, findSub, findSubGo, hm]
  | cons c r =>
    rw [hxb] at hm
    simp [includesSub, findSub, findSubGo, hm]

/-- A string includes itself. -/
lemma includes_self (x : Str) : includesSub x x = true := by
  simpa using includes_self_append x []

/-- The in-flight flag tracks the number of running background
refreshes, which never exceeds one, in every reachable state. -/
lemma reach_inv (s : BState) (h : Reach s) :
    s.bgInflight ≤ 1 ∧ (s.isUpdating = true ↔ s.bgInflight = 1) := by
  induction h with
  | init => simp [bInit]
  | call force now s hr ih =>
    rcases s with ⟨cache, lft, upd, infl⟩
    cases cache with
    | none => simpa [fetchPlaylistSync] using ih
    | some c =>
      simp only [fetchPlaylistSync] at *
      split_ifs <;> first | (simp_all; omega) | simp_all
  | fg idc evc v now s hr ih =>
    simpa [fgComplete, performFetchStep] using ih
  | bg idc evc v now s hr hupd ih =>
    have h1 : s.bgInflight = 1 := ih.2.mp hupd
    simp [bgComplete, performFetchStep, h1]

/-- One line of the stream-route HLS rewrite matches the amended C4
description. -/
lemma rewriteLine_eq (base line : Str) :
    rewriteLineStream base line = hlsLineSpecC4 base line := by
  have h35 : ofStr "#" = [35] := by decide
  unfold rewriteLineStream hlsLineSpecC4
  rw [h35]
  cases h : jsTrim line with
  | nil => simp [List.isPrefixOf]
  | cons c rest =>
    by_cases hc : c = 35
    · subst hc
      simp [List.isPrefixOf, List.isEmpty]
    · have hc2 : ¬(35 = c) := fun hh => hc hh.symm
      simp [List.isPrefixOf, List.isEmpty, hc, hc2]
      cases hr : resolveURL (c :: rest) base <;> simp [Option.getD]

/-! Claim theorems. -/

/-- C1: for every input string, the codec decode function k0 computes
exactly the five steps worded in the specification: reverse the code
units, base64-decode reading the bytes as Latin-1, reverse, base64-decode
again reading the bytes as UTF-8, reverse the UTF-8 text. -/
theorem c1_codec_matches_spec (input : Str) : k0 input = codecSpecC1 input := rfl

/-- C2 counterexample: a four-unit blob whose offset 0 decodes to a
valid JSON object.  Under the claim wording (offset 98 first, then every
in-range ascending offset, stopping early at the blob length) the scan
returns offset 0 with that candidate, but decryptPlaylist aborts the
whole loop at its first iteration because 98 is not below the blob
length, and returns the failure sentinel instead. -/
theorem c2_counterexample :
    scanSpecC2 shortBlob = some (0, ofStr "\x7b\x7d") ∧
    decryptPlaylist shortBlob = errorJson ∧
    errorJson ≠ ofStr "\x7b\x7d" := by
  refine ⟨by decide, by decide, by decide⟩

/-- C2 amended: decryptPlaylist tries offsets in the order 98 first then
0..999 ascending, decoding each suffix with the codec, trimming,
requiring a leading opening brace, truncating at the last closing brace
and testing with JSON.parse, and returns the first successful candidate;
however the scan aborts entirely at the first candidate offset in that
order that is not below the blob length (so a blob shorter than 99 units
is never scanned), and it returns only the candidate, not the offset. -/
theorem c2_amended (blob : Str) :
    decryptPlaylist blob =
      (match scanAmendedC2 blob with
       | some p => p.2
       | none => errorJson) :=
  dpGo_eq_scanGo blob offsetsToCheck

/-- C3: rewriting the one-AdaptationSet one-Widevine-block manifest with
the ClearKey directive removes the Widevine element and leaves exactly
one ContentProtection element, the ClearKey one (scheme URI
urn:uuid:e2719d58-a985-b3c9-781a-0070aaff49d2, value ClearKey), inside
the AdaptationSet, carrying the harvested cenc:default_KID attribute
with its namespace declaration; a self-closing Widevine element is
removed the same way, and with two AdaptationSets each one receives
exactly one ClearKey element. -/
theorem c3_clearkey_injection :
    mpdRewriteProxyRoute mpdC3 mpdC3Base (some (ofStr "clearkey")) = mpdC3Out ∧
    countSub cpOpenPat mpdC3Out = 1 ∧
    includesSub mpdC3Out (ofStr "edef8ba9") = false ∧
    includesSub mpdC3Out (ofStr "<AdaptationSet mimeType=\"video/mp4\">\n      <ContentProtection schemeIdUri=\"urn:uuid:e2719d58-a985-b3c9-781a-0070aaff49d2\" value=\"ClearKey\" cenc:default_KID=\"10aa77ec\" xmlns:cenc=\"urn:mpeg:cenc:2013\"/>") = true ∧
    includesSub mpdC3Out (ofStr "</AdaptationSet>") = true ∧
    clearkeyTransform mpdC3b = mpdC3bOut ∧
    countSub cpOpenPat mpdC3bOut = 1 ∧
    includesSub mpdC3bOut (ofStr "edef8ba9") = false ∧
    clearkeyTransform mpdC3c = mpdC3cOut ∧
    countSub cpOpenPat mpdC3cOut = 2 ∧
    countSub (ofStr "e2719d58") mpdC3cOut = 2 ∧
    countSub adaptOpenPat mpdC3cOut = 2 ∧
    includesSub mpdC3cOut (ofStr "edef8ba9") = false := by
  refine ⟨by decide, by decide, by decide, by decide, by decide, by decide, by decide,
    by decide, by decide, by decide, by decide, by decide, by decide⟩

/-- C4 counterexample: on the specification manifest the stream route
replaces the relative segment line with the resolved absolute URL
itself; the output carries no proxy wrapping, no query parameters, no
impersonation parameters and no DRM directive. -/
theorem c4_counterexample :
    rewriteHlsStream hlsBaseC4 hlsTextC4 = hlsOutC4 ∧
    (splitLF hlsOutC4).get? 2 = some (ofStr "http://host/path/seg1.ts") ∧
    includesSub hlsOutC4 (ofStr "proxy") = false ∧
    includesSub hlsOutC4 (ofStr "?") = false ∧
    includesSub hlsOutC4 (ofStr "user_agent") = false ∧
    includesSub hlsOutC4 (ofStr "drm") = false := by
  refine ⟨by decide, by decide, by decide, by decide, by decide, by decide⟩

/-- C4 amended: in the stream route, each non-empty non-comment line is
resolved against the directory portion of the manifest URL and replaced
by the resolved absolute URL itself, with no proxy wrapping and no
impersonation or DRM parameters (already-absolute and unresolvable lines
pass as their trimmed form); EXT-X-KEY and EXT-X-MAP tag lines get their
URI attribute value resolved in place on the trimmed line; every other
comment or tag line and every blank line stays byte-identical. -/
theorem c4_amended (base text : Str) :
    rewriteHlsStream base text = joinLF ((splitLF text).map (hlsLineSpecC4 base)) := by
  unfold rewriteHlsStream
  have : rewriteLineStream base = hlsLineSpecC4 base := funext (rewriteLine_eq base)
  rw [this]

/-- C5 counterexample: with a cached snapshot holding one channel and
both category fetches failing, performFetch still succeeds and replaces
the cache with an empty snapshot. -/
theorem c5_counterexample :
    ((performFetchStep none none (ofStr "v216") 2 s5C5).1.map
        (fun d => d.indonesia.length + d.event.length) = some 0) ∧
    ((performFetchStep none none (ofStr "v216") 2 s5C5).2.cache.map
        (fun d => d.indonesia.length) = some 0) ∧
    (s5C5.cache.map (fun d => d.indonesia.length) = some 1) := by
  refine ⟨rfl, rfl, rfl⟩

/-- C5 amended: performFetch in the current client always replaces the
cached snapshot with the newly assembled one and returns it, even when
every category fetch fails, in which case the snapshot carries empty
channel lists; only the older fetchPlaylist variant in the same file
fails and leaves the cache untouched when both categories fail. -/
theorem c5_amended (idc evc : Option (List Json)) (v : Str) (now n1 : Nat)
    (s : BState) (sv1 : V1State) :
    (performFetchStep idc evc v now s).1 = some (performFetchData idc evc v now) ∧
    (performFetchStep idc evc v now s).2.cache = some (performFetchData idc evc v now) ∧
    fetchPlaylistV1Combine none none n1 sv1 = (none, sv1) := by
  refine ⟨rfl, rfl, rfl⟩

/-- C6 counterexample: an input ending in an exclamation mark is not
valid base64, yet the codec returns the full nonempty decode of the
remaining characters, not the empty string. -/
theorem c6_counterexample :
    ((ofStr "mh1c!").any
        (fun c => (sextet (c % 256)).isNone && decide (c % 256 ≠ 61)) = true) ∧
    k0 (ofStr "mh1c!") = ofStr "\x7b\x7d" ∧
    (ofStr "\x7b\x7d" : Str) ≠ [] := by
  refine ⟨by decide, by decide, by decide⟩

/-- C6 amended: no decode step of the codec can fail or throw: the
lenient base64 decoder skips characters outside its alphabet (stopping
only at a padding character), so a malformed input yields the best-effort
decode of the remaining characters rather than the empty string; in
particular appending one non-alphabet, non-padding character to the
input leaves the result unchanged. -/
theorem c6_amended (s : Str) (c : Nat) (h1 : sextet (c % 256) = none)
    (h2 : c % 256 ≠ 61) : k0 (s ++ [c]) = k0 s := by
  unfold k0
  simp only [reverse, List.reverse_append, List.reverse_cons, List.reverse_nil,
    List.nil_append, List.singleton_append]
  rw [b64Decode_cons_skip c s.reverse h1 h2]

/-- C6 witness: the amended theorem applied to the concrete malformed
input. -/
theorem c6_witness :
    sextet (33 % 256) = none ∧ (33 % 256 ≠ 61) ∧
    k0 (ofStr "mh1c" ++ [33]) = k0 (ofStr "mh1c") :=
  ⟨by decide, by decide, c6_amended (ofStr "mh1c") 33 (by decide) (by decide)⟩

/-- C7 counterexample: on a blob where no offset yields valid JSON,
decryptPlaylist returns the JSON failure sentinel, not a null result,
and the caller fetchAndDecrypt ends up with an empty channel list, not
the raw input blob (the standalone decrypt.js scan does return none). -/
theorem c7_counterexample :
    scan noiseBlob = none ∧
    decryptPlaylist noiseBlob = errorJson ∧
    errorJson ≠ noiseBlob ∧
    (fetchAndDecryptPost noiseBlob).map isEmptyArr = some true := by
  refine ⟨by decide, by decide, by decide, by decide⟩

/-- C7 amended: when no candidate offset within the scan bound yields
valid JSON, the standalone scan returns null while decryptPlaylist
returns the JSON sentinel object with an error field; no exception
escapes, and the caller fetchAndDecrypt parses the sentinel and yields
an empty channel list rather than substituting the raw input blob. -/
theorem c7_amended (blob : Str) (h : scanAmendedC2 blob = none) :
    decryptPlaylist blob = errorJson ∧
    (fetchAndDecryptPost blob).map isEmptyArr = some true := by
  have hd : decryptPlaylist blob = errorJson := by
    have he := dpGo_eq_scanGo blob offsetsToCheck
    have h2 : scanGo blob (offsetsToCheck.takeWhile (· < blob.length)) = none := h
    unfold decryptPlaylist
    rw [he, h2]
  refine ⟨hd, ?_⟩
  simp only [fetchAndDecryptPost, hd]
  decide

/-- C7 witness: the amended theorem applied to the all-noise blob. -/
theorem c7_witness :
    scanAmendedC2 noiseBlob = none ∧
    decryptPlaylist noiseBlob = errorJson ∧
    (fetchAndDecryptPost noiseBlob).map isEmptyArr = some true :=
  ⟨by decide, (c7_amended noiseBlob (by decide)).1, (c7_amended noiseBlob (by decide)).2⟩

/-- C8: in every reachable state holding a stale cached snapshot, a
non-forced fetchPlaylist call returns the old snapshot immediately and
leaves it cached; a background refresh is spawned exactly when none is
in flight, at most one background refresh runs afterwards, and any
further non-forced call on the resulting state spawns nothing. -/
theorem c8_stale_cache_single_refresh (s : BState) (c : PlaylistData) (now : Nat)
    (hreach : Reach s) (hc : s.cache = some c)
    (hstale : CACHE_DURATION ≤ now - s.lastFetchTime) :
    (fetchPlaylistSync false now s).ret = some c ∧
    (fetchPlaylistSync false now s).state.cache = some c ∧
    (fetchPlaylistSync false now s).spawned = !s.isUpdating ∧
    (fetchPlaylistSync false now s).state.bgInflight ≤ 1 ∧
    (∀ now2 : Nat,
      (fetchPlaylistSync false now2 (fetchPlaylistSync false now s).state).spawned = false) := by
  obtain ⟨hle, hiff⟩ := reach_inv s hreach
  rcases s with ⟨cache, lft, upd, infl⟩
  dsimp only at hc hstale hiff hle
  subst hc
  have hnf : ¬(now - lft < CACHE_DURATION) := by omega
  cases upd with
  | true =>
    refine ⟨?_, ?_, ?_, ?_, ?_⟩
    · simp [fetchPlaylistSync, hnf]
    · simp [fetchPlaylistSync, hnf]
    · simp [fetchPlaylistSync, hnf]
    · simpa [fetchPlaylistSync, hnf] using hle
    · intro now2
      simp [fetchPlaylistSync, hnf, apply_ite FPOut.spawned]
  | false =>
    have h0 : infl = 0 := by
      simp at hiff
      omega
    subst h0
    refine ⟨?_, ?_, ?_, ?_, ?_⟩
    · simp [fetchPlaylistSync, hnf]
    · simp [fetchPlaylistSync, hnf]
    · simp [fetchPlaylistSync, hnf]
    · simp [fetchPlaylistSync, hnf]
    · intro now2
      simp [fetchPlaylistSync, hnf, apply_ite FPOut.spawned]

/-- C8 witness: the theorem applied to the concrete reachable state
whose snapshot was fetched at time 7, queried at the end of the
freshness window. -/
theorem c8_witness :
    (fetchPlaylistSync false 300007 c8State).ret = some c8Data ∧
    (fetchPlaylistSync false 300007 c8State).spawned = true ∧
    (fetchPlaylistSync false 300008 (fetchPlaylistSync false 300007 c8State).state).spawned = false := by
  have hr : Reach c8State :=
    Reach.fg (some []) (some []) (ofStr "v216") 7 bInit Reach.init
  have h := c8_stale_cache_single_refresh c8State c8Data 300007 hr rfl (by decide)
  refine ⟨h.1, ?_, h.2.2.2.2 300008⟩
  rw [h.2.2.1]
  rfl

/-- C9 counterexample: an upstream fetch failure in the stream route is
answered with status 500, not 502, and the JSON body carries the raw
stack trace. -/
theorem c9_counterexample :
    (streamCatch (ofStr "TypeError") (ofStr "fetch failed")
        (ofStr "TypeError: fetch failed\n    at fetch internals") (ofStr "http://bad/x.m3u8")).1 = 500 ∧
    (streamCatch (ofStr "TypeError") (ofStr "fetch failed")
        (ofStr "TypeError: fetch failed\n    at fetch internals") (ofStr "http://bad/x.m3u8")).1 ≠ 502 ∧
    includesSub
      (streamCatch (ofStr "TypeError") (ofStr "fetch failed")
        (ofStr "TypeError: fetch failed\n    at fetch internals") (ofStr "http://bad/x.m3u8")).2
      (jsonEscape (ofStr "TypeError: fetch failed\n    at fetch internals")) = true := by
  refine ⟨by decide, by decide, by decide⟩

/-- C9 amended: the main proxy route answers an upstream error whose
message contains fetch, network or connect with 502 and a structured
JSON body carrying error and suggestion fields; the stream route instead
answers any non-abort error with 500 and a JSON body exposing the error
message and the raw stack trace. -/
theorem c9_amended (msg name stack url : Str)
    (hnet : isNetErr (errMessageOf msg) = true)
    (hname : name ≠ ofStr "AbortError") :
    (proxyCatch msg).1 = 502 ∧
    includesSub (proxyCatch msg).2 (ofStr "\"error\":") = true ∧
    includesSub (proxyCatch msg).2 (ofStr "\"suggestion\":") = true ∧
    (streamCatch name msg stack url).1 = 500 ∧
    includesSub (streamCatch name msg stack url).2 (jsonEscape stack) = true := by
  refine ⟨?_, ?_, ?_, ?_, ?_⟩
  · simp [proxyCatch, hnet]
  · simp only [proxyCatch, hnet, if_pos]
    unfold proxyNetworkBody
    apply includes_append_right
    apply includes_append_right
    decide
  · simp only [proxyCatch, hnet, if_pos]
    unfold proxyNetworkBody
    apply includes_append_left
    decide
  · simp [streamCatch, hname]
  · simp only [streamCatch, hname, if_neg]
    apply includes_append_right
    apply includes_append_right
    apply includes_append_right
    apply includes_append_left
    exact includes_self (jsonEscape stack)

/-- C9 witness: the amended theorem at a concrete fetch failure. -/
theorem c9_witness :
    (proxyCatch (ofStr "fetch failed")).1 = 502 ∧
    includesSub (proxyCatch (ofStr "fetch failed")).2 (ofStr "\"suggestion\":") = true ∧
    (streamCatch (ofStr "TypeError") (ofStr "fetch failed") (ofStr "at fetch") (ofStr "http://x/")).1 = 500 := by
  have h := c9_amended (ofStr "fetch failed") (ofStr "TypeError") (ofStr "at fetch")
    (ofStr "http://x/") (by decide) (by decide)
  exact ⟨h.1, h.2.2.1, h.2.2.2.1⟩

/-- C10: a present but syntactically invalid url query parameter makes
the stream handler answer 400 with the body Invalid URL, before any
outbound header is constructed and with no upstream request issued. -/
theorem c10_invalid_url (u : Str) (h : jsUrlParse u = none) :
    streamPre (some u) = .invalidUrl ∧
    streamPreResponse (streamPre (some u)) = some (400, ofStr "Invalid URL") ∧
    streamPreHeadersBuilt (streamPre (some u)) = false ∧
    streamPreFetches (streamPre (some u)) = [] := by
  have hp : streamPre (some u) = .invalidUrl := by
    simp [streamPre, h]
  refine ⟨hp, ?_, ?_, ?_⟩ <;> rw [hp] <;> rfl

/-- C10 witness: the theorem at a concrete invalid target. -/
theorem c10_witness :
    streamPre (some (ofStr "notaurl")) = .invalidUrl ∧
    streamPreFetches (streamPre (some (ofStr "notaurl"))) = [] := by
  have h := c10_invalid_url (ofStr "notaurl") rfl
  exact ⟨h.1, h.2.2.2⟩

end Telefish
